import Mathlib

/-!
Verification of the pyroclast cpvae training pipeline
(`pyroclast/cpvae/vae.py` and `pyroclast/cpvae/cpvae.py`).

The development shallowly embeds the data model and the operations of the
two files.  Tensor contents that only flow through the computation are
represented as rational numbers; tensor shapes are lists of naturals;
distribution objects from `tensorflow_probability` are represented by a
small inductive capturing the family information and the batch/event
shapes that the code under verification branches on.  External
collaborators (the optimizer step, the gradient tape, the early-stopping
controller, the decision-tree refit) are environment parameters, and the
pieces of this repository that sit outside the two files (the posterior
and prior factory functions of `util.py`, the DDT internals) are modelled
from the specification where a claim needs them, as noted on each
definition.
-/

/-! ## Distribution shapes (tensorflow_probability collaborator)

The code of `vae.py` branches on the Python class of a distribution
(`isinstance(d, tfd.MultivariateNormalLinearOperator)`) and combines
distributions whose batch/event shapes determine the shapes of the loss
tensors.  `TFDist` records exactly this information. -/

inductive TFDist where
  /-- An elementwise distribution (e.g. `tfd.Normal`, `tfd.Logistic`):
  batch shape is the full parameter shape, event shape is scalar. -/
  | elementwise (shape : List Nat)
  /-- A `tfd.MultivariateNormalDiag` (a subclass of
  `tfd.MultivariateNormalLinearOperator`): given batch shape and a
  vector event of the given dimension. -/
  | mvnDiag (batch : List Nat) (eventDim : Nat)
  /-- The `tfd.Independent(base, reinterpreted_batch_ndims)`: moves the last
  `k` batch dimensions of `base` into the event. -/
  | independent (base : TFDist) (k : Nat)
  deriving DecidableEq

def TFDist.batchShape : TFDist → List Nat
  | .elementwise s => s
  | .mvnDiag b _ => b
  | .independent d k => d.batchShape.take (d.batchShape.length - k)

def TFDist.eventShape : TFDist → List Nat
  | .elementwise _ => []
  | .mvnDiag _ e => [e]
  | .independent d k => d.batchShape.drop (d.batchShape.length - k) ++ d.eventShape

/-- The `isinstance(d, tfd.MultivariateNormalLinearOperator)`:  in
tensorflow_probability, `MultivariateNormalDiag` is a subclass of
`MultivariateNormalLinearOperator`, while `Independent` and the
elementwise families are not. -/
def TFDist.isMVNLinearOperator : TFDist → Bool
  | .mvnDiag _ _ => true
  | _ => false

/-- Shape of a sample drawn from the distribution (one sample, no sample
dimensions): batch shape followed by event shape. -/
def TFDist.sampleShape (d : TFDist) : List Nat := d.batchShape ++ d.eventShape

/-- Numpy-style broadcast of one (right-aligned) dimension pair. -/
def broadcastDim (a b : Nat) : Option Nat :=
  if a = b then some a else if a = 1 then some b else if b = 1 then some a else none

/-- Broadcast of two reversed shape lists (least significant dimension
first). -/
def broadcastRev : List Nat → List Nat → Option (List Nat)
  | [], t => some t
  | a :: s, [] => some (a :: s)
  | a :: s, b :: t => do
      let d ← broadcastDim a b
      let r ← broadcastRev s t
      pure (d :: r)

/-- Numpy-style broadcast of two shapes (right-aligned). -/
def broadcastShapes (s t : List Nat) : Option (List Nat) :=
  (broadcastRev s.reverse t.reverse).map List.reverse

/-- Shape of `d.log_prob(x)` where `x` has shape `xShape`: the event
shape must be the trailing suffix of `xShape`, and the remaining leading
dimensions broadcast against the batch shape. -/
def logProbShape (d : TFDist) (xShape : List Nat) : Option (List Nat) :=
  let ev := d.eventShape
  if xShape.drop (xShape.length - ev.length) = ev then
    broadcastShapes (xShape.take (xShape.length - ev.length)) d.batchShape
  else none

/-- Shape of `tfd.kl_divergence(q, p)`: defined when the event shapes
agree, with the batch shapes broadcast. -/
def klShape (q p : TFDist) : Option (List Nat) :=
  if q.eventShape = p.eventShape then broadcastShapes q.batchShape p.batchShape else none

/-- Shape of `tfp.vi.monte_carlo_variational_loss(p.log_prob, q, sample_size)`:
the sample axis is averaged out, leaving the batch shape of the surrogate
posterior `q` (defined when the event shapes agree). -/
def mcShape (p q : TFDist) : Option (List Nat) :=
  if q.eventShape = p.eventShape then some q.batchShape else none

/-! ## Loss terms of `VAE.forward_loss`

`forward_loss` picks which estimator computes the latent loss; the term
type records the chosen computation symbolically, and `LossTerm.shape`
gives the shape of the resulting tensor. -/

inductive LossTerm where
  /-- The `-1 * d.log_prob(x)` for an input of shape `xShape`. -/
  | negLogProb (d : TFDist) (xShape : List Nat)
  /-- The `tfd.kl_divergence(q, p)`. -/
  | klDiv (q p : TFDist)
  /-- The `tfp.vi.monte_carlo_variational_loss(p.log_prob, q, sample_size)`. -/
  | mcVarLoss (p q : TFDist) (sampleSize : Nat)
  deriving DecidableEq

def LossTerm.shape : LossTerm → Option (List Nat)
  | .negLogProb d x => logProbShape d x
  | .klDiv q p => klShape q p
  | .mcVarLoss p q _ => mcShape p q

/-! ## The `VAE` class of `pyroclast/cpvae/vae.py` -/

/-- Replace the last dimension of a shape (shape action of `snt.Linear`
on a flattened batch and of a 1x1 `snt.Conv2D` on NHWC data). -/
def replaceLast (outDim : Nat) (s : List Nat) : List Nat :=
  s.take (s.length - 1) ++ [outDim]

/-- The `snt.Flatten`: keep the leading batch dimension, flatten the rest. -/
def flattenShape : List Nat → List Nat
  | [] => []
  | n :: rest => [n, rest.prod]

/-- The constructor arguments of `VAE.__init__` that the verified methods
read.  `encoder` and `decoder` are shape transformers; `posterior_fn` and
`output_fn` build a distribution from (loc shape, scale shape). -/
structure VAE where
  encoder : List Nat → List Nat
  decoder : List Nat → List Nat
  prior : TFDist
  posterior_fn : List Nat → List Nat → TFDist
  output_fn : List Nat → List Nat → TFDist
  latent_dim : Nat
  data_channels : Nat

/-- The `VAE.posterior` (vae.py lines 68-73): encode, project to loc/scale of
dimension `latent_dim` via `Flatten ∘ Linear`, and wrap the result in
`tfd.Independent(·, len(loc.shape) - 2)`. -/
def VAE.posteriorDist (m : VAE) (x : List Nat) : TFDist :=
  let e := m.encoder x
  let loc := replaceLast m.latent_dim (flattenShape e)
  .independent (m.posterior_fn loc loc) (loc.length - 2)

/-- The `VAE._output_distribution` (vae.py lines 75-80): decode, project with
a 1x1 convolution to `data_channels` channels, and wrap the elementwise
output family in `tfd.Independent(·, 3)`. -/
def VAE.outputDistOf (m : VAE) (zShape : List Nat) : TFDist :=
  let de := m.decoder zShape
  let loc := replaceLast m.data_channels de
  .independent (m.output_fn loc loc) 3

/-- The output distribution produced by `VAE.__call__` (vae.py lines
38-46): decode one sample of the posterior. -/
def VAE.callOutput (m : VAE) (x : List Nat) : TFDist :=
  m.outputDistOf (m.posteriorDist x).sampleShape

structure ForwardLoss where
  recon_loss : LossTerm
  latent_loss : LossTerm
  deriving DecidableEq

/-- The `VAE.forward_loss` (vae.py lines 48-66): the reconstruction loss is
`-1 * outputs[x].log_prob(inputs)`; the latent loss is the closed-form KL
divergence `tfd.kl_divergence(z_posterior, self._prior)` when both the
prior and the posterior are `MultivariateNormalLinearOperator` instances,
and otherwise `tfp.vi.monte_carlo_variational_loss(self._prior.log_prob,
z_posterior, sample_size=mc_samples)` with the default `mc_samples=100`. -/
def VAE.forward_loss (m : VAE) (x : List Nat) (mc_samples : Nat := 100) : ForwardLoss :=
  let outD := m.callOutput x
  let z := m.posteriorDist x
  { recon_loss := .negLogProb outD x
    latent_loss :=
      if m.prior.isMVNLinearOperator && z.isMVNLinearOperator then
        .klDiv z m.prior
      else
        .mcVarLoss m.prior z mc_samples }

/-- Modelled from the spec: the posterior factory
`diag_gaussian_posterior` lives in `pyroclast/cpvae/util.py`, which is
not under `src/`; per spec sections 2, 3 and 4.1 the posterior is a
per-example diagonal Gaussian over the latent space — each row of the
batch an independent distribution with a `latent_dim`-dimensional vector
event. -/
def diag_gaussian_posterior (loc _scale : List Nat) : TFDist :=
  .mvnDiag (loc.take (loc.length - 1)) (loc.getLastD 0)

/-- Modelled from the spec: the prior factory `iso_gaussian_prior` lives
in `pyroclast/cpvae/util.py`, which is not under `src/`; per spec
sections 2 and 3 it is a single isotropic Gaussian over `R^d` (empty
batch shape, `d`-dimensional event). -/
def iso_gaussian_prior (d : Nat) : TFDist := .mvnDiag [] d

/-- Modelled from the spec: the output-distribution factories
(`disc_logistic`/`l2`/`bernoulli`) live in `pyroclast/cpvae/util.py`,
which is not under `src/`; per spec section 4.1 the output distribution
is location/scale, independent per pixel and channel, i.e. an
elementwise family over the location shape. -/
def pixelwise_output (loc _scale : List Nat) : TFDist :=
  .elementwise loc

/-! ## `outer_run_minibatch` of `pyroclast/cpvae/cpvae.py` (lines 119-197)

Tensor contents are rationals; a batch image is a flattened list of
pixel values.  The model object captured by the closure (the CpVAE
model, whose class is not under `src/`) is represented by its interface:
`model(x)` yields a posterior representation and the class-probability
rows `y_hat`, and `model.vae_loss(x, z_posterior, y, training)` yields
the per-example `(distortion, rate)` pair; `vae_loss` additionally
receives the model's current prior, since replacing `model.prior` in the
training loop changes the loss of later minibatches. -/

/-- The `tf.reduce_mean` of a rank-1 tensor. -/
def listMean (l : List ℚ) : ℚ := l.sum / l.length

/-- Interface of the CpVAE model object used by `outer_run_minibatch`.
The class itself is not under `src/`; only the behaviour visible to the
minibatch function is represented.  `PriorRep` below stands for the
opaque distribution object stored in `model.prior`. -/
structure CpVAEModel where
  /-- The `z_posterior` component of `model(x)` (an opaque representation). -/
  forwardPost : List (List ℚ) → Nat
  /-- The `y_hat` component of `model(x)`: one row of class probabilities per
  example. -/
  forwardYHat : List (List ℚ) → List (List ℚ)
  /-- The `model.vae_loss(x, z_posterior, y=labels, training)` given the
  model's current prior: the per-example `(distortion, rate)` pair. -/
  vaeLoss : Nat → List (List ℚ) → Nat → List Nat → Bool → List ℚ × List ℚ

/-- One minibatch as supplied by the dataset collaborator, together with
the gradient returned by `tape.gradient(loss, model.trainable_variables)`
for this batch — a function of the loss scalar, with `none` standing for
a `None` gradient entry. -/
structure BatchInput where
  data : List (List ℚ)
  labels : List Nat
  gradsOf : ℚ → List (Option ℚ)

/-- The `tf.losses.sparse_categorical_crossentropy(y_true, y_pred)`: the
negative log of the probability the row of `y_pred` assigns to the true
class.  `negLog` is the numeric `-log` primitive of the tensorflow
collaborator. -/
def sparse_categorical_crossentropy (negLog : ℚ → ℚ) (yTrue : List Nat)
    (yPred : List (List ℚ)) : List ℚ :=
  (yTrue.zip yPred).map fun p => negLog (p.2.getD p.1 0)

/-- The `tf.clip_by_global_norm(gradients, clip_norm)`: every non-`None`
gradient is scaled by the common factor
`clip_norm / max(global_norm, clip_norm)` (the factor is the `scale`
argument, computed by the tensorflow collaborator); `None` entries are
returned as `None`. -/
def clip_by_global_norm (scale : ℚ) (grads : List (Option ℚ)) : List (Option ℚ) :=
  grads.map (Option.map (· * scale))

/-- The list comprehension of cpvae.py lines 160-165: pair each gradient
with (the index of) its trainable variable and keep the pairs whose
gradient is not `None`. -/
def gradVarPairs (grads : List (Option ℚ)) : List (ℚ × Nat) :=
  grads.enum.filterMap fun ig => ig.2.map fun g => (g, ig.1)

/-- The `optimizer.apply_gradients(pairs)`: apply the optimizer step
(`optStep grad var`, for Adam or RMSProp a collaborator function) to
each paired variable; variables not in the list are untouched. -/
def apply_gradients (optStep : ℚ → ℚ → ℚ) (pairs : List (ℚ × Nat))
    (vars : List ℚ) : List ℚ :=
  pairs.foldl (fun vs gv => vs.set gv.2 (optStep gv.1 (vs.getD gv.2 0))) vars

/-- The `tf.math.argmax` over one row (first index of the maximum). -/
def argmaxIdx (l : List ℚ) : Nat :=
  (l.enum.foldl (fun best ix => if ix.2 > best.2 then ix else best)
    (0, l.getD 0 0)).1

/-- The mutable training state visible to the minibatch function: the
trainable variables and the global step counter. -/
structure NetState where
  vars : List ℚ
  globalStep : Nat
  deriving DecidableEq

structure MBResult where
  loss : ℚ
  lossNumerator : ℚ
  classNumerator : ℚ
  lossDenominator : ℚ
  deriving DecidableEq

/-- The `x = tf.cast(data, tf.float32) / 255.` -/
def scaledInput (b : BatchInput) : List (List ℚ) :=
  b.data.map fun im => im.map (· / 255)

/-- The per-example `(distortion, rate)` pair of the minibatch. -/
def mbDistortionRate (mdl : CpVAEModel) (prior : Nat) (b : BatchInput)
    (is_train : Bool) : List ℚ × List ℚ :=
  mdl.vaeLoss prior (scaledInput b) (mdl.forwardPost (scaledInput b)) b.labels is_train

/-- The per-example classification loss of the minibatch. -/
def mbClassLoss (mdl : CpVAEModel) (negLog : ℚ → ℚ) (b : BatchInput) : List ℚ :=
  sparse_categorical_crossentropy negLog b.labels (mdl.forwardYHat (scaledInput b))

/-- The `loss = tf.reduce_mean(alpha * distortion + beta * rate + gamma *
classification_loss)` (cpvae.py lines 143-144). -/
def mbLoss (mdl : CpVAEModel) (negLog : ℚ → ℚ) (alpha beta gamma : ℚ)
    (prior : Nat) (b : BatchInput) (is_train : Bool) : ℚ :=
  let dr := mbDistortionRate mdl prior b is_train
  listMean (List.zipWith3 (fun d r c => alpha * d + beta * r + gamma * c)
    dr.1 dr.2 (mbClassLoss mdl negLog b))

/-- The `run_minibatch` closure built by `outer_run_minibatch`
(cpvae.py lines 128-195): scale the input, advance the global step,
run the model, compose the joint loss, and — when training — compute
the gradients, clip them by global norm when `clip_norm` is truthy,
drop `None` gradients and apply the optimizer; finally return the
loss numerator, the classification-rate numerator and the batch size. -/
def run_minibatch (mdl : CpVAEModel) (negLog : ℚ → ℚ) (optStep : ℚ → ℚ → ℚ)
    (clipScale : ℚ) (alpha beta gamma clip_norm : ℚ) (prior : Nat)
    (b : BatchInput) (is_train : Bool) (st : NetState) : MBResult × NetState :=
  let x := scaledInput b
  let st1 : NetState := { st with globalStep := st.globalStep + 1 }
  let y_hat := mdl.forwardYHat x
  let dr := mbDistortionRate mdl prior b is_train
  let classification_loss := mbClassLoss mdl negLog b
  let loss := mbLoss mdl negLog alpha beta gamma prior b is_train
  let st2 : NetState :=
    if is_train then
      let gradients := b.gradsOf loss
      let clipped :=
        if clip_norm = 0 then gradients
        else clip_by_global_norm clipScale gradients
      { st1 with vars := apply_gradients optStep (gradVarPairs clipped) st1.vars }
    else st1
  let prediction := y_hat.map argmaxIdx
  let hits := List.zipWith (fun p l => if p = l then (1 : ℚ) else 0) prediction b.labels
  ({ loss := loss
     lossNumerator := (List.zipWith3 (fun d r c => alpha * d + beta * r + gamma * c)
       dr.1 dr.2 classification_loss).sum
     classNumerator := hits.sum
     lossDenominator := (x.length : ℚ) }, st2)

/-! ## The `train` loop of `pyroclast/cpvae/cpvae.py` (lines 209-293)

The loop's environment bundles the dataset batches, the external
numeric primitives, the early-stopping controller (its class is not
under `src/`; only its boolean verdict is used by `train`) and the
outcome of each decision-tree refit.  `PriorRep`/tree identities are
opaque naturals: the loop only moves them around wholesale. -/

/-- Outcome of one successful `DDT.update_model_tree` call. -/
structure RefitResult where
  accuracy : ℚ
  newTree : Nat
  newTreeDist : Nat
  deriving DecidableEq

structure LoopEnv where
  cpModel : CpVAEModel
  negLog : ℚ → ℚ
  optStep : ℚ → ℚ → ℚ
  clipScale : ℚ
  trainBatches : List BatchInput
  testBatches : List BatchInput
  /-- The `early_stopping(epoch, test_loss)` (the `EarlyStopping` controller
  of `pyroclast/common/early_stopping.py`, treated as a collaborator). -/
  stop : Nat → ℚ → Bool
  /-- Modelled from the spec: `DDT.update_model_tree` of
  `pyroclast/cpvae/ddt.py` is not under `src/`.  Per spec section 4.2 the
  refit either fully succeeds — producing a refreshed tree, its mixture
  `tree_distribution` and a training accuracy — or fails, raising without
  replacing anything (`none`). -/
  refit : Nat → Option RefitResult

structure LoopCfg where
  alpha : ℚ
  beta : ℚ
  gamma : ℚ
  clip_norm : ℚ
  treeUpdatePeriod : Nat
  maxEpochs : Nat

/-- The observable state of the CpVAE model object during `train`:
whether `model.classifier` is a `DDT`, the classifier's current tree and
`tree_distribution`, the model's current `prior`, and the network
state. -/
structure LoopModel where
  classifierIsDDT : Bool
  tree : Nat
  treeDistribution : Nat
  prior : Nat
  net : NetState
  deriving DecidableEq

structure PassAcc where
  lossNum : ℚ
  classNum : ℚ
  lossDen : ℚ
  deriving DecidableEq

/-- One pass over a batch list (cpvae.py lines 231-239 resp. 252-260):
run the minibatch function on every batch, accumulating the loss
numerator, the classification-rate numerator and the denominator. -/
def runPass (E : LoopEnv) (cfg : LoopCfg) (prior : Nat) (batches : List BatchInput)
    (is_train : Bool) (st : NetState) : PassAcc × NetState :=
  batches.foldl
    (fun acc b =>
      let r := run_minibatch E.cpModel E.negLog E.optStep E.clipScale
        cfg.alpha cfg.beta cfg.gamma cfg.clip_norm prior b is_train acc.2
      ({ lossNum := acc.1.lossNum + r.1.lossNumerator
         classNum := acc.1.classNum + r.1.classNumerator
         lossDen := acc.1.lossDen + r.1.lossDenominator }, r.2))
    (⟨0, 0, 0⟩, st)

/-- The train pass followed by the test pass of one epoch; returns the
test-pass accumulator (whose loss is fed to the early-stopping check)
and the model with the updated network state.  Neither pass touches the
prior, the tree or the classifier. -/
def epochPasses (E : LoopEnv) (cfg : LoopCfg) (m : LoopModel) : PassAcc × LoopModel :=
  let tr := runPass E cfg m.prior E.trainBatches true m.net
  let te := runPass E cfg m.prior E.testBatches false tr.2
  (te.1, { m with net := te.2 })

/-- The early-stopping verdict of the epoch:
`early_stopping(epoch, float(loss_numerator) / float(loss_denominator))`
on the test-pass accumulator (cpvae.py lines 274-275). -/
def stopFlag (E : LoopEnv) (cfg : LoopCfg) (e : Nat) (m : LoopModel) : Bool :=
  E.stop e ((epochPasses E cfg m).1.lossNum / (epochPasses E cfg m).1.lossDen)

/-- The `type(model.classifier) is DDT and epoch % tree_update_period == 0`
(cpvae.py line 279). -/
def updateCond (cfg : LoopCfg) (m : LoopModel) (e : Nat) : Bool :=
  m.classifierIsDDT && (e % cfg.treeUpdatePeriod == 0)

inductive Event where
  | trainPass
  | testPass
  | sampleEv
  | stopCheck (verdict : Bool)
  | treeUpdate (ok : Bool)
  deriving DecidableEq

inductive EpochOutcome where
  /-- The epoch ran to the end of the loop body. -/
  | next (m : LoopModel)
  /-- The early-stopping check returned true and the loop breaks. -/
  | stopped (m : LoopModel)
  /-- The `update_model_tree` raised; the exception propagates out of
  `train`. -/
  | failed (m : LoopModel)
  deriving DecidableEq

def EpochOutcome.model : EpochOutcome → LoopModel
  | .next m => m
  | .stopped m => m
  | .failed m => m

/-- One iteration of the epoch loop (cpvae.py lines 223-292): train
pass, test pass, prior sampling, the early-stopping check (`break` on
true), then — when the classifier is a DDT and the epoch index is a
multiple of `tree_update_period` — the tree refit, which on success
replaces the classifier's tree and `tree_distribution` and then sets
`model.prior = model.classifier.tree_distribution`.  The returned event
list records the steps in execution order. -/
def epochStep (E : LoopEnv) (cfg : LoopCfg) (e : Nat) (m : LoopModel) :
    EpochOutcome × List Event :=
  let m1 := (epochPasses E cfg m).2
  let stopB := stopFlag E cfg e m
  let base := [Event.trainPass, Event.testPass, Event.sampleEv, Event.stopCheck stopB]
  if stopB then (.stopped m1, base)
  else if updateCond cfg m1 e then
    match E.refit e with
    | some r =>
        (.next { m1 with tree := r.newTree, treeDistribution := r.newTreeDist,
                         prior := r.newTreeDist },
         base ++ [Event.treeUpdate true])
    | none => (.failed m1, base ++ [Event.treeUpdate false])
  else (.next m1, base)

inductive RunResult where
  /-- The `for epoch in range(max_epochs)` exhausted without a break. -/
  | completed (m : LoopModel)
  /-- The loop broke out on a true early-stopping verdict. -/
  | earlyStopped (m : LoopModel)
  /-- A refit exception propagated out of `train`. -/
  | refitError (m : LoopModel)
  deriving DecidableEq

def RunResult.model : RunResult → LoopModel
  | .completed m => m
  | .earlyStopped m => m
  | .refitError m => m

def RunResult.isEarlyStopped : RunResult → Bool
  | .earlyStopped _ => true
  | _ => false

/-- The epoch loop from epoch `e` with `fuel` epochs remaining, paired
with the trace of events tagged by their epoch. -/
def runFrom (E : LoopEnv) (cfg : LoopCfg) :
    Nat → Nat → LoopModel → RunResult × List (Nat × Event)
  | 0, _, m => (.completed m, [])
  | fuel + 1, e, m =>
    match epochStep E cfg e m with
    | (.stopped m1, evs) => (.earlyStopped m1, evs.map ((e, ·)))
    | (.failed m1, evs) => (.refitError m1, evs.map ((e, ·)))
    | (.next m1, evs) =>
      let rest := runFrom E cfg fuel (e + 1) m1
      (rest.1, evs.map ((e, ·)) ++ rest.2)

/-- The `train` (cpvae.py lines 209-293): run the epoch loop over
`range(early_stopping.max_epochs)` from the initial model. -/
def train (E : LoopEnv) (cfg : LoopCfg) (m0 : LoopModel) :
    RunResult × List (Nat × Event) :=
  runFrom E cfg cfg.maxEpochs 0 m0

/-! Derived, closed-form descriptions of the run, used to state the
temporal claims. -/

/-- The model state at the start of epoch `e`, following the loop body
regardless of breaks (the loop body past a break is never observed, so
this agrees with the executed prefix). -/
def iterModel (E : LoopEnv) (cfg : LoopCfg) (m0 : LoopModel) : Nat → LoopModel
  | 0 => m0
  | e + 1 => (epochStep E cfg e (iterModel E cfg m0 e)).1.model

/-- The early-stopping verdict the run produces at epoch `e`. -/
def stopAt (E : LoopEnv) (cfg : LoopCfg) (m0 : LoopModel) (e : Nat) : Bool :=
  stopFlag E cfg e (iterModel E cfg m0 e)

/-- Whether the run's tree-update condition holds at epoch `e`. -/
def condAt (cfg : LoopCfg) (m0 : LoopModel) (e : Nat) : Bool :=
  m0.classifierIsDDT && (e % cfg.treeUpdatePeriod == 0)

/-- The events of epoch `e` of the run, in execution order. -/
def epochEventsAt (E : LoopEnv) (cfg : LoopCfg) (m0 : LoopModel) (e : Nat) : List Event :=
  [Event.trainPass, Event.testPass, Event.sampleEv, Event.stopCheck (stopAt E cfg m0 e)]
    ++ if stopAt E cfg m0 e = false ∧ condAt cfg m0 e = true then
        [Event.treeUpdate (E.refit e).isSome]
      else []

/-- The number of epochs the loop enters, starting at epoch `s` with
`fuel` epochs of budget: an epoch is final when its verdict is true or
its refit raises. -/
def runLenFrom (E : LoopEnv) (cfg : LoopCfg) (m0 : LoopModel) : Nat → Nat → Nat
  | _, 0 => 0
  | s, fuel + 1 =>
    if stopAt E cfg m0 s ∨ (condAt cfg m0 s ∧ (E.refit s).isNone) then 1
    else 1 + runLenFrom E cfg m0 (s + 1) fuel

/-- Whether some epoch in `[s, s + fuel)` produces a true early-stopping
verdict in the run. -/
def stopsWithin (E : LoopEnv) (cfg : LoopCfg) (m0 : LoopModel) : Nat → Nat → Bool
  | _, 0 => false
  | s, fuel + 1 => stopAt E cfg m0 s || stopsWithin E cfg m0 (s + 1) fuel

/-! ## The checkpoint-loading phase of `setup` (cpvae.py lines 62-68) -/

/-- The `osp.join(output_dir, 'model')`. -/
def model_dir (output_dir : String) : String := output_dir ++ "/model"

inductive SetupLoad where
  /-- The `checkpoint.restore(tf.train.latest_checkpoint(model_dir))` ran. -/
  | restored (ckpt : String)
  /-- No checkpoint and none expected: `setup` goes on to fit an initial
  tree. -/
  | freshInit
  /-- The `raise Exception(msg)`. -/
  | raised (msg : String)
  deriving DecidableEq

/-- The load branch of `setup`: restore the latest checkpoint when one
exists; otherwise raise `Exception("Model not loaded")` when
`expect_load` is set, and fall through to fresh initialisation when it
is not. -/
def setupLoadCheckpoint (latest : Option String) (expect_load : Bool) : SetupLoad :=
  match latest with
  | some c => .restored c
  | none => if expect_load then .raised "Model not loaded" else .freshInit

/-- Whether the character list `pat` occurs contiguously in `s` (used to
ask whether an error message names a directory). -/
def listContains (s pat : List Char) : Bool :=
  (List.range (s.length + 1)).any fun i => ((s.drop i).take pat.length) == pat

/-! ## Concrete instances used to evaluate the claims -/

/-- A concrete `VAE` instance: 2x(3x3x4) images, latent dimension 5. -/
def vaeW : VAE where
  encoder := fun _ => [2, 6]
  decoder := fun _ => [2, 3, 3, 7]
  prior := iso_gaussian_prior 5
  posterior_fn := diag_gaussian_posterior
  output_fn := pixelwise_output
  latent_dim := 5
  data_channels := 4

/-- A concrete CpVAE model interface: two examples per batch. -/
def mdlW : CpVAEModel where
  forwardPost := fun _ => 0
  forwardYHat := fun _ => [[1], [1]]
  vaeLoss := fun _ _ _ _ _ => ([1, 2], [3, 4])

/-- A concrete minibatch whose gradient has a `None` entry at index 1. -/
def bW : BatchInput where
  data := [[0], [0]]
  labels := [0, 0]
  gradsOf := fun _ => [some 1, none]

/-- A concrete network state with two trainable variables. -/
def netW : NetState := ⟨[5, 7], 0⟩

/-- A concrete loop environment: empty dataset, early stop at epoch 1,
refits always succeed. -/
def EW : LoopEnv where
  cpModel := mdlW
  negLog := id
  optStep := fun g v => v - g
  clipScale := 1
  trainBatches := []
  testBatches := []
  stop := fun e _ => e == 1
  refit := fun _ => some ⟨1, 2, 3⟩

/-- A concrete loop configuration: update period 1, at most 3 epochs. -/
def cfgW : LoopCfg := ⟨1, 1, 1, 0, 1, 3⟩

/-- A concrete initial loop model whose classifier is a DDT. -/
def m0W : LoopModel := ⟨true, 0, 0, 0, ⟨[], 0⟩⟩

/-- A loop environment whose early-stopping controller stops at once. -/
def E2 : LoopEnv := { EW with stop := fun _ _ => true }

/-- A one-epoch configuration. -/
def cfg2 : LoopCfg := { cfgW with maxEpochs := 1 }

/-- A loop environment whose tree refit always raises. -/
def E3 : LoopEnv := { EW with refit := fun _ => none }

/-! ## Theorems -/

theorem zipWith3_one_zero_zero (D R C : List ℚ) (hR : R.length = D.length)
    (hC : C.length = D.length) :
    List.zipWith3 (fun d r c => 1 * d + 0 * r + 0 * c) D R C = D := by
  induction D generalizing R C with
  | nil => cases R <;> cases C <;> rfl
  | cons d D ih =>
    cases R with
    | nil => simp at hR
    | cons r R =>
      cases C with
      | nil => simp at hC
      | cons c C =>
        simp only [List.length_cons, Nat.succ.injEq] at hR hC
        simp only [List.zipWith3, List.cons.injEq]
        exact ⟨by ring, ih R C hR hC⟩

/-- C1: in `VAE.forward_loss`, the rate term is the closed-form KL
divergence between the posterior and the current prior when both are
`MultivariateNormalLinearOperator` Gaussians, and otherwise the
Monte-Carlo variational estimate with the fixed default sample count
100; the distortion term is the negative log-likelihood of the input
under the output distribution. -/
theorem forward_loss_rate_distortion (m : VAE) (x : List Nat) :
    ((m.prior.isMVNLinearOperator = true ∧ (m.posteriorDist x).isMVNLinearOperator = true) →
      (m.forward_loss x).latent_loss = LossTerm.klDiv (m.posteriorDist x) m.prior) ∧
    (¬(m.prior.isMVNLinearOperator = true ∧ (m.posteriorDist x).isMVNLinearOperator = true) →
      (m.forward_loss x).latent_loss = LossTerm.mcVarLoss m.prior (m.posteriorDist x) 100) ∧
    (m.forward_loss x).recon_loss = LossTerm.negLogProb (m.callOutput x) x := by
  refine ⟨fun h => ?_, fun h => ?_, rfl⟩
  · simp [VAE.forward_loss, h.1, h.2]
  · have hfalse : (m.prior.isMVNLinearOperator && (m.posteriorDist x).isMVNLinearOperator) = false := by
      cases hp : m.prior.isMVNLinearOperator <;>
        cases hq : (m.posteriorDist x).isMVNLinearOperator <;> simp_all
    simp [VAE.forward_loss, hfalse]

theorem forward_loss_rate_distortion_witness :
    ¬(vaeW.prior.isMVNLinearOperator = true ∧
        (vaeW.posteriorDist [2, 3, 3, 4]).isMVNLinearOperator = true) ∧
    (vaeW.forward_loss [2, 3, 3, 4]).latent_loss
      = LossTerm.mcVarLoss vaeW.prior (vaeW.posteriorDist [2, 3, 3, 4]) 100 :=
  ⟨by decide, (forward_loss_rate_distortion vaeW [2, 3, 3, 4]).2.1 (by decide)⟩

/-- C5: for a training minibatch the backpropagated scalar loss is the
batch mean of `alpha * distortion + beta * rate + gamma *
classification_loss` with the sparse categorical cross-entropy as
classification loss, and the gradients the optimizer applies are
clipped by global norm exactly when `clip_norm` is nonzero. -/
theorem run_minibatch_loss_and_clipping (mdl : CpVAEModel) (negLog : ℚ → ℚ)
    (optStep : ℚ → ℚ → ℚ) (clipScale alpha beta gamma clip_norm : ℚ)
    (prior : Nat) (b : BatchInput) (st : NetState) :
    (run_minibatch mdl negLog optStep clipScale alpha beta gamma clip_norm
        prior b true st).1.loss
      = listMean (List.zipWith3 (fun d r c => alpha * d + beta * r + gamma * c)
          (mbDistortionRate mdl prior b true).1
          (mbDistortionRate mdl prior b true).2
          (sparse_categorical_crossentropy negLog b.labels
            (mdl.forwardYHat (scaledInput b))))
    ∧ (run_minibatch mdl negLog optStep clipScale alpha beta gamma clip_norm
        prior b true st).2.vars
      = apply_gradients optStep
          (gradVarPairs (if clip_norm = 0
            then b.gradsOf (mbLoss mdl negLog alpha beta gamma prior b true)
            else clip_by_global_norm clipScale
              (b.gradsOf (mbLoss mdl negLog alpha beta gamma prior b true))))
          st.vars :=
  ⟨rfl, rfl⟩

/-- C7: with loss weights `alpha = 1, beta = 0, gamma = 0` the
classification-loss contribution vanishes and the minibatch training
loss is exactly the mean distortion, whatever the labels are. -/
theorem pure_reconstruction_loss (mdl : CpVAEModel) (negLog : ℚ → ℚ)
    (optStep : ℚ → ℚ → ℚ) (clipScale clip_norm : ℚ) (prior : Nat)
    (b : BatchInput) (is_train : Bool) (st : NetState)
    (hR : (mbDistortionRate mdl prior b is_train).2.length
        = (mbDistortionRate mdl prior b is_train).1.length)
    (hC : (mbClassLoss mdl negLog b).length
        = (mbDistortionRate mdl prior b is_train).1.length) :
    (run_minibatch mdl negLog optStep clipScale 1 0 0 clip_norm
        prior b is_train st).1.loss
      = listMean (mbDistortionRate mdl prior b is_train).1 := by
  show mbLoss mdl negLog 1 0 0 prior b is_train
      = listMean (mbDistortionRate mdl prior b is_train).1
  rw [show mbLoss mdl negLog 1 0 0 prior b is_train
      = listMean (List.zipWith3 (fun d r c => 1 * d + 0 * r + 0 * c)
          (mbDistortionRate mdl prior b is_train).1
          (mbDistortionRate mdl prior b is_train).2
          (mbClassLoss mdl negLog b)) from rfl,
    zipWith3_one_zero_zero _ _ _ hR hC]

theorem pure_reconstruction_loss_witness :
    (run_minibatch mdlW id (fun g v => v - g) 1 1 0 0 0 0 bW true netW).1.loss
      = listMean [1, 2] :=
  pure_reconstruction_loss mdlW id (fun g v => v - g) 1 0 0 bW true netW
    (by decide) (by decide)

/-- C9: every invocation of the minibatch function advances the global
step counter by exactly one, on test passes as well as train passes. -/
theorem run_minibatch_advances_global_step (mdl : CpVAEModel) (negLog : ℚ → ℚ)
    (optStep : ℚ → ℚ → ℚ) (clipScale alpha beta gamma clip_norm : ℚ)
    (prior : Nat) (b : BatchInput) (is_train : Bool) (st : NetState) :
    (run_minibatch mdl negLog optStep clipScale alpha beta gamma clip_norm
        prior b is_train st).2.globalStep = st.globalStep + 1 := by
  cases is_train <;> rfl

theorem gradVarPairs_mem_getElem (grads : List (Option ℚ)) (g : ℚ) (j : Nat)
    (h : (g, j) ∈ gradVarPairs grads) : grads[j]? = some (some g) := by
  unfold gradVarPairs at h
  rw [List.mem_filterMap] at h
  obtain ⟨⟨i0, g0⟩, hmem, hmap⟩ := h
  cases g0 with
  | none => simp at hmap
  | some g1 =>
    simp only [Option.map_some', Option.some.injEq, Prod.mk.injEq] at hmap
    obtain ⟨hg, hj⟩ := hmap
    subst hg
    subst hj
    exact List.mk_mem_enum_iff_getElem?.mp hmem

theorem apply_gradients_frame (optStep : ℚ → ℚ → ℚ) (pairs : List (ℚ × Nat))
    (vars : List ℚ) (i : Nat) (h : ∀ p ∈ pairs, p.2 ≠ i) :
    (apply_gradients optStep pairs vars)[i]? = vars[i]? := by
  induction pairs generalizing vars with
  | nil => rfl
  | cons p ps ih =>
    show (apply_gradients optStep ps (vars.set p.2 (optStep p.1 (vars.getD p.2 0))))[i]?
        = vars[i]?
    rw [ih _ fun q hq => h q (List.mem_cons_of_mem p hq)]
    exact List.getElem?_set_ne (h p (List.mem_cons_self p ps))

/-- C10: the optimizer step is applied only to trainable variables whose
gradient is not `None`; a variable whose gradient entry is `None` is
left unchanged by the minibatch. -/
theorem none_gradient_leaves_variable (mdl : CpVAEModel) (negLog : ℚ → ℚ)
    (optStep : ℚ → ℚ → ℚ) (clipScale alpha beta gamma clip_norm : ℚ)
    (prior : Nat) (b : BatchInput) (st : NetState) (i : Nat)
    (h : (b.gradsOf (mbLoss mdl negLog alpha beta gamma prior b true))[i]? = some none) :
    (run_minibatch mdl negLog optStep clipScale alpha beta gamma clip_norm
        prior b true st).2.vars[i]? = st.vars[i]? := by
  have hv : (run_minibatch mdl negLog optStep clipScale alpha beta gamma clip_norm
        prior b true st).2.vars
      = apply_gradients optStep
          (gradVarPairs (if clip_norm = 0
            then b.gradsOf (mbLoss mdl negLog alpha beta gamma prior b true)
            else clip_by_global_norm clipScale
              (b.gradsOf (mbLoss mdl negLog alpha beta gamma prior b true))))
          st.vars := rfl
  rw [hv]
  have hclip : (if clip_norm = 0
      then b.gradsOf (mbLoss mdl negLog alpha beta gamma prior b true)
      else clip_by_global_norm clipScale
        (b.gradsOf (mbLoss mdl negLog alpha beta gamma prior b true)))[i]? = some none := by
    split
    · exact h
    · simp only [clip_by_global_norm, List.getElem?_map, h, Option.map_some',
        Option.map_none']
  apply apply_gradients_frame
  intro p hp
  intro hpi
  have := gradVarPairs_mem_getElem _ p.1 p.2 hp
  rw [hpi, hclip] at this
  simp at this

theorem none_gradient_leaves_variable_witness :
    (bW.gradsOf (mbLoss mdlW id 1 1 1 0 bW true))[1]? = some none
    ∧ (run_minibatch mdlW id (fun g v => v - g) 1 1 1 1 0 0 bW true netW).2.vars[1]?
        = netW.vars[1]? :=
  ⟨by decide, none_gradient_leaves_variable mdlW id (fun g v => v - g) 1 1 1 1 0 0
    bW netW 1 (by decide)⟩

/-- C8 counterexample: with no checkpoint and `expect_load` set, `setup`
raises the fixed message `Model not loaded`, which does not mention the
expected model directory (here `out/model`). -/
theorem setup_error_lacks_directory :
    setupLoadCheckpoint none true = SetupLoad.raised "Model not loaded"
    ∧ listContains ("Model not loaded".toList) ((model_dir "out").toList) = false := by
  exact ⟨rfl, by decide⟩

/-- C8 (amended): with `expect_load` true and no checkpoint in the model
directory, `setup` fails with the fatal explicit error message
`Model not loaded` (which does not name the directory); when a checkpoint
exists it is restored and no error is raised. -/
theorem setup_load_behaviour (latest : Option String) (expect_load : Bool) :
    (latest = none → expect_load = true →
      setupLoadCheckpoint latest expect_load = SetupLoad.raised "Model not loaded")
    ∧ (∀ c, latest = some c →
      setupLoadCheckpoint latest expect_load = SetupLoad.restored c) := by
  constructor
  · intro h1 h2
    subst h1
    subst h2
    rfl
  · intro c hc
    subst hc
    rfl

theorem setup_load_behaviour_witness :
    setupLoadCheckpoint none true = SetupLoad.raised "Model not loaded"
    ∧ setupLoadCheckpoint (some "ckpt-7") true = SetupLoad.restored "ckpt-7" :=
  ⟨(setup_load_behaviour none true).1 rfl rfl,
   (setup_load_behaviour (some "ckpt-7") true).2 "ckpt-7" rfl⟩

/-- C6: for a batch of `n` NHWC images the distortion and rate tensors
of the VAE loss are per-example of shape `(n,)` — not reduced to a
scalar — on the closed-form KL path as well as on the Monte-Carlo path
(posterior/prior/output families as built by `util.py`, modelled from
the spec). -/
theorem vae_loss_per_example_shapes (m : VAE) (n H W K : Nat) (es : List Nat)
    (x : List Nat)
    (hx : x = [n, H, W, m.data_channels])
    (henc : m.encoder x = n :: es)
    (hdec : m.decoder [n, m.latent_dim] = [n, H, W, K])
    (hpost : m.posterior_fn = diag_gaussian_posterior)
    (hout : m.output_fn = pixelwise_output)
    (hprior : m.prior = iso_gaussian_prior m.latent_dim) :
    (m.forward_loss x).recon_loss.shape = some [n]
    ∧ (m.forward_loss x).latent_loss.shape = some [n]
    ∧ LossTerm.shape (LossTerm.klDiv (m.posteriorDist x) m.prior) = some [n]
    ∧ LossTerm.shape (LossTerm.mcVarLoss m.prior (m.posteriorDist x) 100) = some [n] := by
  have hq : m.posteriorDist x = .independent (.mvnDiag [n] m.latent_dim) 0 := by
    rw [VAE.posteriorDist, henc, hpost]
    simp [flattenShape, replaceLast, diag_gaussian_posterior]
  have hout' : m.callOutput x = .independent (.elementwise [n, H, W, m.data_channels]) 3 := by
    rw [VAE.callOutput, hq, VAE.outputDistOf, hout]
    simp [TFDist.sampleShape, TFDist.batchShape, TFDist.eventShape]
    rw [hdec]
    simp [replaceLast, pixelwise_output]
  have hlat : (m.forward_loss x).latent_loss
      = LossTerm.mcVarLoss m.prior (m.posteriorDist x) 100 := by
    rw [VAE.forward_loss]
    rw [hq, hprior]
    rfl
  refine ⟨?_, ?_, ?_, ?_⟩
  · show (LossTerm.negLogProb (m.callOutput x) x).shape = some [n]
    rw [hout', hx]
    simp [LossTerm.shape, logProbShape, TFDist.eventShape, TFDist.batchShape,
      broadcastShapes, broadcastRev, broadcastDim]
  · rw [hlat, hq, hprior]
    simp [LossTerm.shape, mcShape, TFDist.eventShape, TFDist.batchShape,
      iso_gaussian_prior]
  · rw [hq, hprior]
    simp [LossTerm.shape, klShape, TFDist.eventShape, TFDist.batchShape,
      iso_gaussian_prior, broadcastShapes, broadcastRev, broadcastDim]
  · rw [hq, hprior]
    simp [LossTerm.shape, mcShape, TFDist.eventShape, TFDist.batchShape,
      iso_gaussian_prior]

theorem vae_loss_per_example_shapes_witness :
    (vaeW.forward_loss [2, 3, 3, 4]).recon_loss.shape = some [2]
    ∧ (vaeW.forward_loss [2, 3, 3, 4]).latent_loss.shape = some [2]
    ∧ LossTerm.shape (LossTerm.klDiv (vaeW.posteriorDist [2, 3, 3, 4]) vaeW.prior)
        = some [2]
    ∧ LossTerm.shape (LossTerm.mcVarLoss vaeW.prior (vaeW.posteriorDist [2, 3, 3, 4]) 100)
        = some [2] :=
  vae_loss_per_example_shapes vaeW 2 3 3 7 [6] [2, 3, 3, 4]
    rfl rfl rfl rfl rfl rfl

theorem epochPasses_prior (E : LoopEnv) (cfg : LoopCfg) (m : LoopModel) :
    (epochPasses E cfg m).2.prior = m.prior := rfl

theorem epochPasses_tree (E : LoopEnv) (cfg : LoopCfg) (m : LoopModel) :
    (epochPasses E cfg m).2.tree = m.tree := rfl

theorem epochPasses_treeDistribution (E : LoopEnv) (cfg : LoopCfg) (m : LoopModel) :
    (epochPasses E cfg m).2.treeDistribution = m.treeDistribution := rfl

theorem updateCond_epochPasses (E : LoopEnv) (cfg : LoopCfg) (m : LoopModel) (e : Nat) :
    updateCond cfg (epochPasses E cfg m).2 e = updateCond cfg m e := rfl

theorem epochStep_of_stop (E : LoopEnv) (cfg : LoopCfg) (e : Nat) (m : LoopModel)
    (h : stopFlag E cfg e m = true) :
    epochStep E cfg e m
      = (.stopped (epochPasses E cfg m).2,
         [Event.trainPass, Event.testPass, Event.sampleEv, Event.stopCheck true]) := by
  unfold epochStep
  simp [h]

theorem epochStep_of_refit (E : LoopEnv) (cfg : LoopCfg) (e : Nat) (m : LoopModel)
    (h1 : stopFlag E cfg e m = false) (h2 : updateCond cfg m e = true)
    (r : RefitResult) (hr : E.refit e = some r) :
    epochStep E cfg e m
      = (.next { (epochPasses E cfg m).2 with
                   tree := r.newTree,
                   treeDistribution := r.newTreeDist,
                   prior := r.newTreeDist },
         [Event.trainPass, Event.testPass, Event.sampleEv, Event.stopCheck false,
          Event.treeUpdate true]) := by
  unfold epochStep
  simp [h1, updateCond_epochPasses, h2, hr]

theorem epochStep_of_refit_fail (E : LoopEnv) (cfg : LoopCfg) (e : Nat) (m : LoopModel)
    (h1 : stopFlag E cfg e m = false) (h2 : updateCond cfg m e = true)
    (hr : E.refit e = none) :
    epochStep E cfg e m
      = (.failed (epochPasses E cfg m).2,
         [Event.trainPass, Event.testPass, Event.sampleEv, Event.stopCheck false,
          Event.treeUpdate false]) := by
  unfold epochStep
  simp [h1, updateCond_epochPasses, h2, hr]

theorem epochStep_of_no_update (E : LoopEnv) (cfg : LoopCfg) (e : Nat) (m : LoopModel)
    (h1 : stopFlag E cfg e m = false) (h2 : updateCond cfg m e = false) :
    epochStep E cfg e m
      = (.next (epochPasses E cfg m).2,
         [Event.trainPass, Event.testPass, Event.sampleEv, Event.stopCheck false]) := by
  unfold epochStep
  simp [h1, updateCond_epochPasses, h2]

theorem epochStep_model_ddt (E : LoopEnv) (cfg : LoopCfg) (e : Nat) (m : LoopModel) :
    (epochStep E cfg e m).1.model.classifierIsDDT = m.classifierIsDDT := by
  by_cases h1 : stopFlag E cfg e m
  · rw [epochStep_of_stop E cfg e m h1]
    rfl
  · by_cases h2 : updateCond cfg m e
    · cases hr : E.refit e with
      | none =>
        rw [epochStep_of_refit_fail E cfg e m (by simpa using h1) h2 hr]
        rfl
      | some r =>
        rw [epochStep_of_refit E cfg e m (by simpa using h1) h2 r hr]
        rfl
    · rw [epochStep_of_no_update E cfg e m (by simpa using h1) (by simpa using h2)]
      rfl

theorem iterModel_ddt (E : LoopEnv) (cfg : LoopCfg) (m0 : LoopModel) (e : Nat) :
    (iterModel E cfg m0 e).classifierIsDDT = m0.classifierIsDDT := by
  induction e with
  | zero => rfl
  | succ e ih =>
    show (epochStep E cfg e (iterModel E cfg m0 e)).1.model.classifierIsDDT
        = m0.classifierIsDDT
    rw [epochStep_model_ddt, ih]

theorem updateCond_iter (E : LoopEnv) (cfg : LoopCfg) (m0 : LoopModel) (e : Nat) :
    updateCond cfg (iterModel E cfg m0 e) e = condAt cfg m0 e := by
  unfold updateCond condAt
  rw [iterModel_ddt]

theorem runFrom_succ (E : LoopEnv) (cfg : LoopCfg) (fuel e : Nat) (m : LoopModel) :
    runFrom E cfg (fuel + 1) e m
      = match epochStep E cfg e m with
        | (.stopped m1, evs) => (.earlyStopped m1, evs.map ((e, ·)))
        | (.failed m1, evs) => (.refitError m1, evs.map ((e, ·)))
        | (.next m1, evs) =>
          ((runFrom E cfg fuel (e + 1) m1).1,
            evs.map ((e, ·)) ++ (runFrom E cfg fuel (e + 1) m1).2) := rfl

theorem range_one_add_map_flatMap {α : Type} (L s : Nat) (f : Nat → List α) :
    ((List.range (1 + L)).map (s + ·)).flatMap f
      = f s ++ ((List.range L).map ((s + 1) + ·)).flatMap f := by
  rw [Nat.add_comm 1 L, List.range_succ_eq_map, List.map_cons, List.flatMap_cons,
    List.map_map]
  have hfun : ((s + ·) ∘ Nat.succ) = ((s + 1) + ·) := by
    funext j
    simp [Function.comp]
    omega
  rw [hfun]
  simp


theorem runFrom_of_stopped (E : LoopEnv) (cfg : LoopCfg) (fuel e : Nat)
    (m m1 : LoopModel) (evs : List Event)
    (h : epochStep E cfg e m = (.stopped m1, evs)) :
    runFrom E cfg (fuel + 1) e m = (.earlyStopped m1, evs.map ((e, ·))) := by
  simp [runFrom, h]

theorem runFrom_of_failed (E : LoopEnv) (cfg : LoopCfg) (fuel e : Nat)
    (m m1 : LoopModel) (evs : List Event)
    (h : epochStep E cfg e m = (.failed m1, evs)) :
    runFrom E cfg (fuel + 1) e m = (.refitError m1, evs.map ((e, ·))) := by
  simp [runFrom, h]

theorem runFrom_of_next (E : LoopEnv) (cfg : LoopCfg) (fuel e : Nat)
    (m m1 : LoopModel) (evs : List Event)
    (h : epochStep E cfg e m = (.next m1, evs)) :
    runFrom E cfg (fuel + 1) e m
      = ((runFrom E cfg fuel (e + 1) m1).1,
         evs.map ((e, ·)) ++ (runFrom E cfg fuel (e + 1) m1).2) := by
  simp [runFrom, h]

theorem runFrom_spec (E : LoopEnv) (cfg : LoopCfg) (m0 : LoopModel)
    (hrefit : ∀ e, (E.refit e).isSome = true) :
    ∀ fuel s,
      runFrom E cfg fuel s (iterModel E cfg m0 s)
        = ((if stopsWithin E cfg m0 s fuel then
              RunResult.earlyStopped
                (iterModel E cfg m0 (s + runLenFrom E cfg m0 s fuel))
            else RunResult.completed (iterModel E cfg m0 (s + fuel))),
           ((List.range (runLenFrom E cfg m0 s fuel)).map (s + ·)).flatMap
             (fun e => (epochEventsAt E cfg m0 e).map ((e, ·)))) := by
  intro fuel
  induction fuel with
  | zero =>
    intro s
    simp [runFrom, runLenFrom, stopsWithin]
  | succ fuel ih =>
    intro s
    obtain ⟨r, hr⟩ := Option.isSome_iff_exists.mp (hrefit s)
    by_cases hb : stopAt E cfg m0 s
    · have hstep : epochStep E cfg s (iterModel E cfg m0 s)
          = (.stopped (epochPasses E cfg (iterModel E cfg m0 s)).2,
             [Event.trainPass, Event.testPass, Event.sampleEv, Event.stopCheck true]) :=
        epochStep_of_stop E cfg s (iterModel E cfg m0 s) hb
      have hiter : iterModel E cfg m0 (s + 1)
          = (epochPasses E cfg (iterModel E cfg m0 s)).2 := by
        show (epochStep E cfg s (iterModel E cfg m0 s)).1.model = _
        rw [hstep]
        rfl
      have hlen : runLenFrom E cfg m0 s (fuel + 1) = 1 := by
        simp [runLenFrom, hb]
      rw [runFrom_of_stopped E cfg fuel s _ _ _ hstep, hlen]
      simp [stopsWithin, hb, hiter, epochEventsAt, List.range_succ]
    · have hb' : stopAt E cfg m0 s = false := by simpa using hb
      have hsw : stopsWithin E cfg m0 s (fuel + 1) = stopsWithin E cfg m0 (s + 1) fuel := by
        simp [stopsWithin, hb']
      by_cases hc : condAt cfg m0 s = true
      · have h2 : updateCond cfg (iterModel E cfg m0 s) s = true := by
          rw [updateCond_iter]
          exact hc
        have hstep := epochStep_of_refit E cfg s (iterModel E cfg m0 s) hb' h2 r hr
        have hiter : iterModel E cfg m0 (s + 1)
            = { (epochPasses E cfg (iterModel E cfg m0 s)).2 with
                  tree := r.newTree,
                  treeDistribution := r.newTreeDist,
                  prior := r.newTreeDist } := by
          show (epochStep E cfg s (iterModel E cfg m0 s)).1.model = _
          rw [hstep]
          rfl
        have hlen : runLenFrom E cfg m0 s (fuel + 1)
            = 1 + runLenFrom E cfg m0 (s + 1) fuel := by
          simp [runLenFrom, hb', hr]
        have hev : epochEventsAt E cfg m0 s
            = [Event.trainPass, Event.testPass, Event.sampleEv, Event.stopCheck false,
               Event.treeUpdate true] := by
          simp [epochEventsAt, hb', hc, hr]
        rw [runFrom_of_next E cfg fuel s _ _ _ hstep, ← hiter, ih (s + 1), hlen, hsw,
          range_one_add_map_flatMap, hev]
        have hsum1 : s + (1 + runLenFrom E cfg m0 (s + 1) fuel)
            = (s + 1) + runLenFrom E cfg m0 (s + 1) fuel := by omega
        have hsum2 : s + (fuel + 1) = (s + 1) + fuel := by omega
        rw [hsum1, hsum2]
      · have hc' : condAt cfg m0 s = false := by simpa using hc
        have h2 : updateCond cfg (iterModel E cfg m0 s) s = false := by
          rw [updateCond_iter]
          exact hc'
        have hstep := epochStep_of_no_update E cfg s (iterModel E cfg m0 s) hb' h2
        have hiter : iterModel E cfg m0 (s + 1)
            = (epochPasses E cfg (iterModel E cfg m0 s)).2 := by
          show (epochStep E cfg s (iterModel E cfg m0 s)).1.model = _
          rw [hstep]
          rfl
        have hlen : runLenFrom E cfg m0 s (fuel + 1)
            = 1 + runLenFrom E cfg m0 (s + 1) fuel := by
          simp [runLenFrom, hb', hc']
        have hev : epochEventsAt E cfg m0 s
            = [Event.trainPass, Event.testPass, Event.sampleEv, Event.stopCheck false] := by
          simp [epochEventsAt, hb', hc']
        rw [runFrom_of_next E cfg fuel s _ _ _ hstep, ← hiter, ih (s + 1), hlen, hsw,
          range_one_add_map_flatMap, hev]
        have hsum1 : s + (1 + runLenFrom E cfg m0 (s + 1) fuel)
            = (s + 1) + runLenFrom E cfg m0 (s + 1) fuel := by omega
        have hsum2 : s + (fuel + 1) = (s + 1) + fuel := by omega
        rw [hsum1, hsum2]

theorem runLenFrom_le (E : LoopEnv) (cfg : LoopCfg) (m0 : LoopModel) :
    ∀ fuel s, runLenFrom E cfg m0 s fuel ≤ fuel := by
  intro fuel
  induction fuel with
  | zero =>
    intro s
    simp [runLenFrom]
  | succ fuel ih =>
    intro s
    unfold runLenFrom
    split
    · omega
    · have := ih (s + 1)
      omega

theorem treeUpdate_mem_epochEventsAt (E : LoopEnv) (cfg : LoopCfg) (m0 : LoopModel)
    (e : Nat) (b : Bool) (h : Event.treeUpdate b ∈ epochEventsAt E cfg m0 e) :
    stopAt E cfg m0 e = false := by
  by_cases hs : stopAt E cfg m0 e = false
  · exact hs
  · have hs' : stopAt E cfg m0 e = true := by simpa using hs
    simp [epochEventsAt, hs'] at h

/-- C3: each epoch of `train` performs, in order, the train pass, the
test pass, prior sampling, the early-stopping check and then — only if
the check returned false, the classifier is a DDT and the epoch index is
a multiple of `tree_update_period` — the tree update; the loop runs at
most `max_epochs` epochs, stops early exactly when some verdict within
the budget is true, and the tree update never runs in an epoch whose
early-stopping check returned true (refits assumed not to raise). -/
theorem training_loop_structure (E : LoopEnv) (cfg : LoopCfg) (m0 : LoopModel)
    (hrefit : ∀ e, (E.refit e).isSome = true) :
    (train E cfg m0).2
        = (List.range (runLenFrom E cfg m0 0 cfg.maxEpochs)).flatMap
            (fun e => (epochEventsAt E cfg m0 e).map ((e, ·)))
    ∧ runLenFrom E cfg m0 0 cfg.maxEpochs ≤ cfg.maxEpochs
    ∧ (∀ e b, (e, Event.treeUpdate b) ∈ (train E cfg m0).2 → stopAt E cfg m0 e = false)
    ∧ (train E cfg m0).1.isEarlyStopped = stopsWithin E cfg m0 0 cfg.maxEpochs := by
  have hspec := runFrom_spec E cfg m0 hrefit cfg.maxEpochs 0
  have hm0 : iterModel E cfg m0 0 = m0 := rfl
  rw [hm0] at hspec
  have hmap : (List.range (runLenFrom E cfg m0 0 cfg.maxEpochs)).map ((0 : Nat) + ·)
      = List.range (runLenFrom E cfg m0 0 cfg.maxEpochs) := by
    have hid : ((0 : Nat) + ·) = (id : Nat → Nat) := funext fun x => by simp
    rw [hid, List.map_id]
  have htrace := congrArg Prod.snd hspec
  have hfst := congrArg Prod.fst hspec
  dsimp only at htrace hfst
  rw [hmap] at htrace
  refine ⟨htrace, runLenFrom_le E cfg m0 cfg.maxEpochs 0, ?_, ?_⟩
  · intro e b hmem
    rw [show (train E cfg m0).2
        = (List.range (runLenFrom E cfg m0 0 cfg.maxEpochs)).flatMap
            (fun e => (epochEventsAt E cfg m0 e).map ((e, ·))) from htrace] at hmem
    rw [List.mem_flatMap] at hmem
    obtain ⟨e1, _, hmem1⟩ := hmem
    rw [List.mem_map] at hmem1
    obtain ⟨ev, hev, heq⟩ := hmem1
    have he : e1 = e := congrArg Prod.fst heq
    have hv : ev = Event.treeUpdate b := congrArg Prod.snd heq
    subst he
    subst hv
    exact treeUpdate_mem_epochEventsAt E cfg m0 e1 b hev
  · rw [show (train E cfg m0).1
        = (if stopsWithin E cfg m0 0 cfg.maxEpochs then
            RunResult.earlyStopped
              (iterModel E cfg m0 (0 + runLenFrom E cfg m0 0 cfg.maxEpochs))
          else RunResult.completed (iterModel E cfg m0 (0 + cfg.maxEpochs))) from hfst]
    by_cases hsw : stopsWithin E cfg m0 0 cfg.maxEpochs = true
    · simp [hsw, RunResult.isEarlyStopped]
    · have hsw' : stopsWithin E cfg m0 0 cfg.maxEpochs = false := by simpa using hsw
      simp [hsw', RunResult.isEarlyStopped]

theorem training_loop_structure_witness :
    (train EW cfgW m0W).1.isEarlyStopped = true :=
  ((training_loop_structure EW cfgW m0W (fun _ => rfl)).2.2.2).trans (by decide)

/-- C2 counterexample: with `tree_update_period = 1`, a DDT classifier
and an early-stopping controller that stops at epoch 0, epoch 0 is
executed and its index is a multiple of the period, yet no tree refit is
invoked in it (the loop breaks before the update step). -/
theorem tree_update_skipped_on_stop_epoch :
    m0W.classifierIsDDT = true
    ∧ 0 % cfg2.treeUpdatePeriod = 0
    ∧ (0, Event.trainPass) ∈ (train E2 cfg2 m0W).2
    ∧ (0, Event.treeUpdate true) ∉ (train E2 cfg2 m0W).2
    ∧ (0, Event.treeUpdate false) ∉ (train E2 cfg2 m0W).2 := by
  decide

/-- C2 (amended): in every epoch in which the early-stopping check
returned false, the tree refit is invoked exactly when the classifier is
a DDT and the epoch index is a multiple of `tree_update_period`; on a
successful refit the model's prior is replaced by the refreshed tree's
mixture distribution, and on every epoch not meeting the condition —
including epochs whose early-stopping check returned true — the prior is
unchanged. -/
theorem tree_update_per_epoch (E : LoopEnv) (cfg : LoopCfg) (e : Nat) (m : LoopModel)
    (_hp : 0 < cfg.treeUpdatePeriod) :
    ((Event.treeUpdate true ∈ (epochStep E cfg e m).2
        ∨ Event.treeUpdate false ∈ (epochStep E cfg e m).2)
      ↔ (stopFlag E cfg e m = false ∧ updateCond cfg m e = true))
    ∧ (∀ r, E.refit e = some r → stopFlag E cfg e m = false →
        updateCond cfg m e = true →
          (epochStep E cfg e m).1.model.prior = r.newTreeDist
          ∧ (epochStep E cfg e m).1.model.tree = r.newTree)
    ∧ (updateCond cfg m e = false → (epochStep E cfg e m).1.model.prior = m.prior)
    ∧ (stopFlag E cfg e m = true → (epochStep E cfg e m).1.model.prior = m.prior) := by
  refine ⟨⟨?_, ?_⟩, ?_, ?_, ?_⟩
  · intro h
    by_cases h1 : stopFlag E cfg e m = true
    · rw [epochStep_of_stop E cfg e m h1] at h
      simp at h
    · have h1' : stopFlag E cfg e m = false := by simpa using h1
      by_cases h2 : updateCond cfg m e = true
      · exact ⟨h1', h2⟩
      · have h2' : updateCond cfg m e = false := by simpa using h2
        rw [epochStep_of_no_update E cfg e m h1' h2'] at h
        simp at h
  · rintro ⟨h1, h2⟩
    cases h3 : E.refit e with
    | none =>
      rw [epochStep_of_refit_fail E cfg e m h1 h2 h3]
      right
      simp
    | some r =>
      rw [epochStep_of_refit E cfg e m h1 h2 r h3]
      left
      simp
  · intro r h3 h1 h2
    rw [epochStep_of_refit E cfg e m h1 h2 r h3]
    exact ⟨rfl, rfl⟩
  · intro h2
    by_cases h1 : stopFlag E cfg e m = true
    · rw [epochStep_of_stop E cfg e m h1]
      rfl
    · rw [epochStep_of_no_update E cfg e m (by simpa using h1) h2]
      rfl
  · intro h1
    rw [epochStep_of_stop E cfg e m h1]
    rfl

theorem tree_update_per_epoch_witness :
    (epochStep EW cfgW 0 m0W).1.model.prior = (3 : Nat)
    ∧ (epochStep EW cfgW 0 m0W).1.model.tree = (2 : Nat) :=
  (tree_update_per_epoch EW cfgW 0 m0W (by decide)).2.1
    ⟨1, 2, 3⟩ rfl (by decide) (by decide)

/-- C4: tree replacement is atomic for the caller of the epoch loop: if
`update_model_tree` raises, the epoch ends in the propagated failure
with the model's prior, tree and mixture exactly as before the refit
attempt; on success the tree, the mixture and the prior are replaced
together (DDT refit modelled from spec section 4.2). -/
theorem tree_refit_atomic (E : LoopEnv) (cfg : LoopCfg) (e : Nat) (m : LoopModel)
    (hstop : stopFlag E cfg e m = false)
    (hcond : updateCond cfg m e = true) :
    (E.refit e = none →
        (epochStep E cfg e m).1 = EpochOutcome.failed (epochPasses E cfg m).2
        ∧ (epochStep E cfg e m).1.model.prior = m.prior
        ∧ (epochStep E cfg e m).1.model.tree = m.tree
        ∧ (epochStep E cfg e m).1.model.treeDistribution = m.treeDistribution)
    ∧ (∀ r, E.refit e = some r →
        (epochStep E cfg e m).1.model.tree = r.newTree
        ∧ (epochStep E cfg e m).1.model.treeDistribution = r.newTreeDist
        ∧ (epochStep E cfg e m).1.model.prior = r.newTreeDist) := by
  constructor
  · intro hr
    rw [epochStep_of_refit_fail E cfg e m hstop hcond hr]
    exact ⟨rfl, rfl, rfl, rfl⟩
  · intro r hr
    rw [epochStep_of_refit E cfg e m hstop hcond r hr]
    exact ⟨rfl, rfl, rfl⟩

theorem tree_refit_atomic_witness :
    (epochStep E3 cfgW 0 m0W).1 = EpochOutcome.failed (epochPasses E3 cfgW m0W).2
    ∧ (epochStep E3 cfgW 0 m0W).1.model.prior = m0W.prior
    ∧ (epochStep E3 cfgW 0 m0W).1.model.tree = m0W.tree
    ∧ (epochStep E3 cfgW 0 m0W).1.model.treeDistribution = m0W.treeDistribution :=
  (tree_refit_atomic E3 cfgW 0 m0W (by decide) (by decide)).1 rfl
